import Mathlib

/-!
Shallow embedding of the `boto-assume-role-with-mfa` library: `arn.py`
(class `ARN`), `mfa_session.py` (`SessionCache`, `CachedMfaSessionFactory`)
and `sso_session.py` (`SSOSessionProvider`).

Python strings are modelled as lists of characters, the Python dicts that
hold session records as structures with `Option` fields for entries that
may be absent, and Python exceptions through the `Except` monad.
Timestamps are modelled as integers denoting UTC instants, absorbing the
external `dateutil`/`pytz` parsing and clock collaborators.  The remote
AWS clients are external collaborators as well; they are modelled as
oracles (structures of response values), and the operations that invoke
them additionally return an explicit log of the requests they issued, so
that call-count properties can be stated.
-/

set_option autoImplicit false

deriving instance DecidableEq for Except

/-- Python `str` values, modelled as lists of characters. -/
abbrev PyStr := List Char

/-- Conversion from Lean string literals to the `PyStr` model. -/
def str (s : String) : PyStr := s.toList

/-- Python `s.split(sep)` for a one-character separator: splits at every
occurrence and keeps empty segments, so that the result always has one
more element than there are occurrences of `sep`. -/
def pySplit (s : PyStr) (sep : Char) : List PyStr :=
  match s with
  | [] => [[]]
  | c :: cs =>
    if c = sep then [] :: pySplit cs sep
    else
      match pySplit cs sep with
      | [] => [[c]]
      | x :: xs => (c :: x) :: xs

/-- Helper for Python `s.split(sep, maxsplit)`: the text before the first
occurrence of `sep` and, when `sep` occurs at all, the text after it. -/
def splitFirst (s : PyStr) (sep : Char) : PyStr × Option PyStr :=
  match s with
  | [] => ([], none)
  | c :: cs =>
    if c = sep then ([], some cs)
    else
      let r := splitFirst cs sep
      (c :: r.1, r.2)

/-- Python `s.split(sep, 1)`. -/
def pySplit1 (s : PyStr) (sep : Char) : List PyStr :=
  match splitFirst s sep with
  | (a, none) => [a]
  | (a, some b) => [a, b]

/-- Python `s.split(sep, maxsplit)` for a one-character separator. -/
def pySplitN (s : PyStr) (sep : Char) (maxsplit : Nat) : List PyStr :=
  match maxsplit with
  | 0 => [s]
  | m + 1 =>
    match splitFirst s sep with
    | (a, none) => [a]
    | (a, some b) => a :: pySplitN b sep m

/-- Python `c in s` for a one-character needle. -/
def pyIn (c : Char) (s : PyStr) : Bool :=
  match s with
  | [] => false
  | x :: xs => if x = c then true else pyIn c xs

/-- The Python exceptions the modelled code can raise. -/
inductive PyErr where
  | keyError
  | indexError
  | notImplementedError (msg : String)
  | exceptionErr (msg : String)
  deriving DecidableEq, Repr

/-- Python list indexing `l[i]` for a non-negative index: raises
`IndexError` when out of range. -/
def listAt {α : Type} (l : List α) (i : Nat) : Except PyErr α :=
  match l.get? i with
  | some x => .ok x
  | none => .error .indexError

/-- Python `l[-1]` on the result of a `split`, which is never empty. -/
def lastElem (l : List PyStr) : PyStr := l.getLastD []

/-! ### `arn.py` -/

/-- Class `ARN` (`arn.py`): `full_arn` keeps the constructor's input, `arn`
is segment 0 (the literal `"arn"` for well-formed inputs) and the
remaining fields are the parsed components. -/
structure ARN where
  full_arn : PyStr
  arn : PyStr
  partition : PyStr
  service : PyStr
  region : PyStr
  account : PyStr
  resource_type : Option PyStr
  resource : PyStr
  deriving DecidableEq, Repr

namespace ARN

/-- `ARN._get_resource`: with exactly 7 `':'`-segments, segments 5 and 6
verbatim; otherwise segment 5, split once on `'/'` when it contains one. -/
def getResource (elements : List PyStr) : Except PyErr (Option PyStr × PyStr) :=
  if elements.length = 7 then do
    let t ← listAt elements 5
    let r ← listAt elements 6
    return (some t, r)
  else do
    let e5 ← listAt elements 5
    if pyIn '/' e5 = false then
      return (none, e5)
    else
      let resource := pySplit1 e5 '/'
      let t ← listAt resource 0
      let r ← listAt resource 1
      return (some t, r)

/-- `ARN.__init__` applied to the pre-split list of `':'`-segments. -/
def parseElems (s : PyStr) (elements : List PyStr) : Except PyErr ARN := do
  let arn0 ← listAt elements 0
  let partition0 ← listAt elements 1
  let service0 ← listAt elements 2
  let region0 ← listAt elements 3
  let account0 ← listAt elements 4
  let tr ← getResource elements
  return ⟨s, arn0, partition0, service0, region0, account0, tr.1, tr.2⟩

/-- `ARN.__init__`: split the input on `':'` and populate the fields. -/
def parse (s : PyStr) : Except PyErr ARN := parseElems s (pySplit s ':')

end ARN

/-! ### `mfa_session.py` -/

/-- The nested `Credentials` dict of a session record.  `expiration` is the
UTC instant that the `Expiration` entry denotes once parsed (`none` models
a record in which the `Expiration` key is absent). -/
structure CredentialsData where
  accessKeyId : PyStr
  secretAccessKey : PyStr
  sessionToken : PyStr
  expiration : Option Int
  deriving DecidableEq, Repr

/-- A non-empty session record dict as produced by the STS
`get_session_token` exchange: the nested `Credentials` dict (`none` models
a record in which the `Credentials` key is absent) plus the pass-through
metadata of the remote response. -/
structure SessionData where
  credentials : Option CredentialsData
  metadata : List (PyStr × PyStr)
  deriving DecidableEq, Repr

/-- The underlying cache store (`botocore`'s `JSONFileCache`), modelled as
an insertion-ordered key-value map. -/
abbrev Store := List (PyStr × SessionData)

/-- The store's `__getitem__`: raises `KeyError` when the key is absent. -/
def storeGetitem (store : Store) (key : PyStr) : Except PyErr SessionData :=
  match store with
  | [] => .error .keyError
  | (k, v) :: rest => if k = key then .ok v else storeGetitem rest key

/-- The store's `__setitem__`: unconditional upsert. -/
def storeSetitem (store : Store) (key : PyStr) (data : SessionData) : Store :=
  match store with
  | [] => [(key, data)]
  | (k, v) :: rest =>
    if k = key then (key, data) :: rest else (k, v) :: storeSetitem rest key data

namespace SessionCache

/-- `SessionCache._get_cached_session`: a `KeyError` from the store lookup
(the only exception it raises) is caught and turned into `None`. -/
def get_cached_session (store : Store) (key : PyStr) : Option SessionData :=
  match storeGetitem store key with
  | .ok v => some v
  | .error _ => none

/-- `SessionCache._is_expired`: reads
`session_data["Credentials"]["Expiration"]` (raising `KeyError` when either
key is absent) and compares it with the current UTC time using strict
less-than (`expired = expiration < now`).  The `dateutil` string-parsing
branch is absorbed into the timestamp model. -/
def is_expired (now : Int) (session_data : SessionData) : Except PyErr Bool :=
  match session_data.credentials with
  | none => .error .keyError
  | some creds =>
    match creds.expiration with
    | none => .error .keyError
    | some expiration => .ok (decide (expiration < now))

/-- `SessionCache.get_session_token`: the session token from the cache, or
`none` if expired or missing.  The second component is the store after the
call; the method performs no writes, which the definition makes explicit by
returning the store it was given in every branch. -/
def get_session_token (store : Store) (now : Int) (key : PyStr) :
    Except PyErr (Option SessionData) × Store :=
  match get_cached_session store key with
  | none => (.ok none, store)
  | some session_data =>
    match is_expired now session_data with
    | .error e => (.error e, store)
    | .ok true => (.ok none, store)
    | .ok false => (.ok (some session_data), store)

/-- `SessionCache.cache_session`: unconditional write-through to the store. -/
def cache_session (store : Store) (key : PyStr) (data : SessionData) : Store :=
  storeSetitem store key data

end SessionCache

/-- The caller identity returned by `sts.get_caller_identity()`: the
`Account` and `Arn` entries. -/
structure StsIdentity where
  account : PyStr
  arn : PyStr
  deriving DecidableEq, Repr

/-- One `sts.get_session_token` request as issued by the factory. -/
structure TokenRequest where
  durationSeconds : Nat
  serialNumber : PyStr
  tokenCode : PyStr
  deriving DecidableEq, Repr

/-- Oracle for the remote STS client: the identity that
`get_caller_identity` reports and the response of `get_session_token` as a
function of the request. -/
structure StsClient where
  identity : StsIdentity
  sessionTokenResponse : TokenRequest → SessionData

/-- `mfa_session._get_account_and_user`: the identity's account and the
part of the identity ARN after the last `'/'` (`arn.split("/")[-1]`). -/
def get_account_and_user (sts : StsClient) : PyStr × PyStr :=
  (sts.identity.account, lastElem (pySplit sts.identity.arn '/'))

namespace CachedMfaSessionFactory

/-- `CachedMfaSessionFactory.SESSION_KEY`. -/
def SESSION_KEY : PyStr := str "temporary_session"

/-- `MFA_SESSION_DURATION.seconds` for `timedelta(hours=12)`: the seconds
component of the normalised duration. -/
def MFA_SESSION_DURATION_seconds : Nat := (12 * 60 * 60) % 86400

/-- The observable outcome of one factory call: the returned session
record, the cache store afterwards, and the remote calls made (number of
`get_caller_identity` calls, `get_session_token` requests in order). -/
structure FactoryOutcome where
  result : SessionData
  store : Store
  callerIdentityCalls : Nat
  tokenRequests : List TokenRequest
  deriving DecidableEq, Repr

/-- `CachedMfaSessionFactory._create_session`: when no MFA code was
supplied (Python truthiness: both `None` and the empty string prompt), the
interactive collaborator's answer `prompted` is used; then the account and
user are resolved via `get_caller_identity`, the `get_session_token`
exchange is issued with the 12-hour duration and the derived serial
number, and its response is cached under `SESSION_KEY` and returned. -/
def create_session (sts : StsClient) (store : Store) (prompted : PyStr)
    (mfa_token : Option PyStr) : FactoryOutcome :=
  let code : PyStr :=
    match mfa_token with
    | none => prompted
    | some t => if t = [] then prompted else t
  let au := get_account_and_user sts
  let request : TokenRequest :=
    ⟨MFA_SESSION_DURATION_seconds,
     str "arn:aws:iam::" ++ au.1 ++ str ":mfa/" ++ au.2,
     code⟩
  let session_data := sts.sessionTokenResponse request
  ⟨session_data,
   SessionCache.cache_session store SESSION_KEY session_data,
   1,
   [request]⟩

/-- `CachedMfaSessionFactory.get_session_token`: the cached token when the
session cache holds a valid one, otherwise a freshly created session. -/
def get_session_token (sts : StsClient) (store : Store) (now : Int)
    (mfa_token : Option PyStr) (prompted : PyStr) : Except PyErr FactoryOutcome :=
  match (SessionCache.get_session_token store now SESSION_KEY).1 with
  | .error e => .error e
  | .ok (some session_data) => .ok ⟨session_data, store, 0, []⟩
  | .ok none => .ok (create_session sts store prompted mfa_token)

end CachedMfaSessionFactory

/-! ### `sso_session.py` -/

/-- `SSOSessionProvider`'s constructor state: the SSO start URL and region. -/
structure SSOSessionProvider where
  start_url : PyStr
  sso_region : PyStr
  deriving DecidableEq, Repr

/-- One `assume_role_session` invocation's arguments. -/
structure AssumeCall where
  role_arn : PyStr
  region_name : PyStr
  session_name : PyStr
  deriving DecidableEq, Repr

/-- Oracle for the external SSO directory and STS: the
`list_available_roles` enumeration (tuples whose items 0 and 2 are the
account id and the role name) and the `UserId` that `get_caller_identity`
reports on the session obtained by assuming the first role. -/
structure SsoDirectory where
  roles : List (PyStr × PyStr × PyStr)
  userId : PyStr
  deriving DecidableEq, Repr

namespace SSOSessionProvider

/-- `SSOSessionProvider.temporary_credentials`: always raises
`NotImplementedError`. -/
def temporary_credentials (_p : SSOSessionProvider) : Except PyErr CredentialsData :=
  .error (.notImplementedError "SSO session uses token, not credentials")

/-- `SSOSessionProvider._get_any_role`: build and parse an ARN from the
first enumerated role, or raise when the enumeration is empty. -/
def get_any_role (d : SsoDirectory) : Except PyErr ARN :=
  match d.roles with
  | [] => .error (.exceptionErr "No accessible roles found")
  | role :: _ =>
    ARN.parse (str "arn:aws:iam::" ++ role.1 ++ str ":role/" ++ role.2.2)

/-- `SSOSessionProvider.get_user`: assume the first available role (region
`"eu-west-1"`, session name `"test"`), then return the middle
`':'`-delimited segment of the reported `UserId`
(`user_identity["UserId"].split(":", 2)[1]`).  The first component logs
the assume-role invocations made. -/
def get_user (d : SsoDirectory) : Except PyErr (List AssumeCall × PyStr) := do
  let role ← get_any_role d
  let call : AssumeCall := ⟨role.full_arn, str "eu-west-1", str "test"⟩
  let mid ← listAt (pySplitN d.userId ':' 2) 1
  return ([call], mid)

end SSOSessionProvider

/-! ### Concrete records for evaluating the model -/

/-- A concrete `Credentials` dict expiring at instant 100. -/
def demoCreds : CredentialsData :=
  ⟨str "temporary_access_key_id", str "temporary_secret_access_key", str "token", some 100⟩

/-- A concrete session record holding `demoCreds`. -/
def demoEntry : SessionData := ⟨some demoCreds, [(str "RequestId", str "4f396cb1")]⟩

/-- A store whose only entry is `demoEntry` under the factory's fixed key. -/
def demoStore : Store := [(CachedMfaSessionFactory.SESSION_KEY, demoEntry)]

/-- A malformed session record: its `Credentials` dict lacks `Expiration`. -/
def demoNoExp : SessionData := ⟨some ⟨str "AK", str "SK", str "TK", none⟩, []⟩

/-- A concrete STS oracle: account `"123456789012"`, identity ARN `"arn"`,
every `get_session_token` exchange answering `demoEntry`. -/
def demoSts : StsClient := ⟨⟨str "123456789012", str "arn"⟩, fun _ => demoEntry⟩

/-! ### Helper lemmas -/

theorem pySplit_ne_nil (s : PyStr) (sep : Char) : pySplit s sep ≠ [] := by
  match s with
  | [] => simp [pySplit]
  | c :: cs =>
    by_cases h : c = sep
    · simp [pySplit, h]
    · have ih := pySplit_ne_nil cs sep
      simp only [pySplit, h, if_false]
      cases hs : pySplit cs sep with
      | nil => exact absurd hs ih
      | cons x xs => simp

theorem pySplit_cons_ne (c : Char) (s : PyStr) (sep : Char) (h : ¬ c = sep) :
    (pySplit (c :: s) sep).length = (pySplit s sep).length := by
  simp only [pySplit, h, if_false]
  cases hs : pySplit s sep with
  | nil => exact absurd hs (pySplit_ne_nil s sep)
  | cons x xs => simp

theorem pySplit_append_length (xs ys : PyStr) (sep : Char) :
    (pySplit (xs ++ ys) sep).length + 1 =
      (pySplit xs sep).length + (pySplit ys sep).length := by
  induction xs with
  | nil =>
    show (pySplit ys sep).length + 1 = (pySplit [] sep).length + (pySplit ys sep).length
    show (pySplit ys sep).length + 1 = 1 + (pySplit ys sep).length
    omega
  | cons c cs ih =>
    rw [List.cons_append]
    by_cases h : c = sep
    · have h1 : (pySplit (c :: (cs ++ ys)) sep).length = (pySplit (cs ++ ys) sep).length + 1 := by
        simp [pySplit, h]
      have h2 : (pySplit (c :: cs) sep).length = (pySplit cs sep).length + 1 := by
        simp [pySplit, h]
      omega
    · rw [pySplit_cons_ne c (cs ++ ys) sep h, pySplit_cons_ne c cs sep h]
      exact ih

theorem pySplit_length_pos (s : PyStr) (sep : Char) : 0 < (pySplit s sep).length :=
  List.length_pos.mpr (pySplit_ne_nil s sep)

theorem listAt_of_get? {α : Type} (l : List α) (i : Nat) (x : α)
    (h : l.get? i = some x) : listAt l i = .ok x := by
  unfold listAt
  rw [h]

theorem listAt_ok_getD {α : Type} (l : List α) (i : Nat) (d : α)
    (h : i < l.length) : listAt l i = .ok (l.getD i d) := by
  induction l generalizing i with
  | nil => simp at h
  | cons x xs ih =>
    cases i with
    | zero => rfl
    | succ n => exact ih n (by simpa using h)

theorem listAt_error {α : Type} (l : List α) (i : Nat) (e : PyErr)
    (h : listAt l i = .error e) : e = .indexError := by
  unfold listAt at h
  cases hx : l.get? i with
  | none => rw [hx] at h; exact (Except.error.injEq _ _).mp h.symm
  | some x => rw [hx] at h; exact absurd h (by simp)

theorem splitFirst_pyIn (c : Char) (s : PyStr) (h : pyIn c s = true) :
    ∃ b, (splitFirst s c).2 = some b := by
  induction s with
  | nil => simp [pyIn] at h
  | cons x xs ih =>
    by_cases hx : x = c
    · exact ⟨xs, by simp [splitFirst, hx]⟩
    · have h' : pyIn c xs = true := by simpa [pyIn, hx] using h
      obtain ⟨b, hb⟩ := ih h'
      exact ⟨b, by simp [splitFirst, hx, hb]⟩

theorem pySplit1_pair (c : Char) (s : PyStr) (h : pyIn c s = true) :
    ∃ a b, pySplit1 s c = [a, b] := by
  obtain ⟨b, hb⟩ := splitFirst_pyIn c s h
  rcases hsf : splitFirst s c with ⟨a, o⟩
  rw [hsf] at hb
  cases o with
  | none => simp at hb
  | some b2 =>
    refine ⟨a, b2, ?_⟩
    unfold pySplit1
    rw [hsf]

theorem storeGetitem_setitem_self (store : Store) (key : PyStr) (data : SessionData) :
    storeGetitem (storeSetitem store key data) key = .ok data := by
  induction store with
  | nil => simp [storeSetitem, storeGetitem]
  | cons kv rest ih =>
    by_cases h : kv.1 = key
    · simp [storeSetitem, h, storeGetitem]
    · simp [storeSetitem, h, storeGetitem, ih]

theorem get_session_token_snd (store : Store) (now : Int) (key : PyStr) :
    (SessionCache.get_session_token store now key).2 = store := by
  unfold SessionCache.get_session_token
  cases hc : SessionCache.get_cached_session store key with
  | none => rfl
  | some sd =>
    dsimp only
    cases he : SessionCache.is_expired now sd with
    | error e => rfl
    | ok b => cases b <;> rfl

theorem exc_bind_ok {ε α β : Type} (a : α) (f : α → Except ε β) :
    (Except.ok a : Except ε α) >>= f = f a := rfl

theorem exc_bind_error {ε α β : Type} (e : ε) (f : α → Except ε β) :
    (Except.error e : Except ε α) >>= f = .error e := rfl

theorem exc_pure {ε α : Type} (a : α) : (pure a : Except ε α) = .ok a := rfl

theorem exists_len6 {α : Type} (l : List α) (h : l.length = 6) :
    ∃ a b c d e f, l = [a, b, c, d, e, f] := by
  rcases l with _ | ⟨a, _ | ⟨b, _ | ⟨c, _ | ⟨d, _ | ⟨e, _ | ⟨f, t⟩⟩⟩⟩⟩⟩ <;>
      simp only [List.length_cons, List.length_nil] at h
  all_goals try omega
  have ht : t = [] := List.length_eq_zero.mp (by omega)
  subst ht
  exact ⟨a, b, c, d, e, f, rfl⟩

theorem exists_len7 {α : Type} (l : List α) (h : l.length = 7) :
    ∃ a b c d e f g, l = [a, b, c, d, e, f, g] := by
  rcases l with _ | ⟨a, t⟩
  · simp at h
  · have h6 : t.length = 6 := by simpa using h
    obtain ⟨b, c, d, e, f, g, rfl⟩ := exists_len6 t h6
    exact ⟨a, b, c, d, e, f, g, rfl⟩

theorem ARN.parseElems_seven (s a b c d e f g : PyStr) :
    ARN.parseElems s [a, b, c, d, e, f, g] = .ok ⟨s, a, b, c, d, e, some f, g⟩ := rfl

theorem ARN.parseElems_six_noslash (s a b c d e f : PyStr) (h : pyIn '/' f = false) :
    ARN.parseElems s [a, b, c, d, e, f] = .ok ⟨s, a, b, c, d, e, none, f⟩ := by
  simp [ARN.parseElems, ARN.getResource, listAt, h, exc_bind_ok, exc_pure]

theorem ARN.parseElems_six_slash (s a b c d e f x y : PyStr)
    (hin : pyIn '/' f = true) (hsp : pySplit1 f '/' = [x, y]) :
    ARN.parseElems s [a, b, c, d, e, f] = .ok ⟨s, a, b, c, d, e, some x, y⟩ := by
  simp [ARN.parseElems, ARN.getResource, listAt, hin, hsp, exc_bind_ok, exc_pure]

theorem ARN.parse_full (s : PyStr) (h : 6 ≤ (pySplit s ':').length) :
    ∃ a, ARN.parse s = .ok a ∧ a.full_arn = s := by
  have hx : ∀ i, i < (pySplit s ':').length → ∃ x, listAt (pySplit s ':') i = .ok x := by
    intro i hi
    exact ⟨(pySplit s ':').getD i [], listAt_ok_getD _ i [] hi⟩
  obtain ⟨x0, h0⟩ := hx 0 (by omega)
  obtain ⟨x1, h1⟩ := hx 1 (by omega)
  obtain ⟨x2, h2⟩ := hx 2 (by omega)
  obtain ⟨x3, h3⟩ := hx 3 (by omega)
  obtain ⟨x4, h4⟩ := hx 4 (by omega)
  obtain ⟨x5, h5⟩ := hx 5 (by omega)
  have hres : ∃ tr, ARN.getResource (pySplit s ':') = .ok tr := by
    by_cases h7 : (pySplit s ':').length = 7
    · obtain ⟨x6, h6⟩ := hx 6 (by omega)
      exact ⟨(some x5, x6), by simp [ARN.getResource, h7, h5, h6, exc_bind_ok, exc_pure]⟩
    · by_cases hin : pyIn '/' x5 = false
      · exact ⟨(none, x5), by simp [ARN.getResource, h7, h5, hin, exc_bind_ok, exc_pure]⟩
      · have hin2 : pyIn '/' x5 = true := by
          cases hq : pyIn '/' x5 <;> simp_all
        obtain ⟨x, y, hxy⟩ := pySplit1_pair '/' x5 hin2
        have hx0 : listAt [x, y] 0 = .ok x := rfl
        have hy1 : listAt [x, y] 1 = .ok y := rfl
        exact ⟨(some x, y),
          by simp [ARN.getResource, h7, h5, hin2, hxy, hx0, hy1, exc_bind_ok, exc_pure]⟩
  obtain ⟨tr, htr⟩ := hres
  exact ⟨⟨s, x0, x1, x2, x3, x4, tr.1, tr.2⟩,
    by simp [ARN.parse, ARN.parseElems, h0, h1, h2, h3, h4, htr, exc_bind_ok, exc_pure], rfl⟩

theorem pySplit_role_template (acct name : PyStr) :
    6 ≤ (pySplit (str "arn:aws:iam::" ++ acct ++ str ":role/" ++ name) ':').length := by
  have e1 := pySplit_append_length (str "arn:aws:iam::" ++ acct ++ str ":role/") name ':'
  have e2 := pySplit_append_length (str "arn:aws:iam::" ++ acct) (str ":role/") ':'
  have e3 := pySplit_append_length (str "arn:aws:iam::") acct ':'
  have hP : (pySplit (str "arn:aws:iam::") ':').length = 5 := by decide
  have hM : (pySplit (str ":role/") ':').length = 2 := by decide
  have ha := pySplit_length_pos acct ':'
  have hn := pySplit_length_pos name ':'
  omega

/-! ### Claim theorems -/

/-- C5: ARN parsing: for every input string, splitting on `':'` with 7
segments yields `resource_type` = segment 5 and `resource` = segment 6
verbatim (no further slash split); with 6 segments, if segment 5 contains
`'/'` it is split on the first `'/'` into `(resource_type, resource)`,
otherwise `resource_type` is absent and `resource` equals segment 5 as-is;
fields `partition`, `service`, `region`, `account` are segments 1-4. -/
theorem arn_parse_splitting (s : PyStr) :
    ((pySplit s ':').length = 7 →
      ARN.parse s = .ok ⟨s, (pySplit s ':').getD 0 [], (pySplit s ':').getD 1 [],
        (pySplit s ':').getD 2 [], (pySplit s ':').getD 3 [], (pySplit s ':').getD 4 [],
        some ((pySplit s ':').getD 5 []), (pySplit s ':').getD 6 []⟩) ∧
    ((pySplit s ':').length = 6 →
      (pyIn '/' ((pySplit s ':').getD 5 []) = true →
        ARN.parse s = .ok ⟨s, (pySplit s ':').getD 0 [], (pySplit s ':').getD 1 [],
          (pySplit s ':').getD 2 [], (pySplit s ':').getD 3 [], (pySplit s ':').getD 4 [],
          some ((pySplit1 ((pySplit s ':').getD 5 []) '/').getD 0 []),
          (pySplit1 ((pySplit s ':').getD 5 []) '/').getD 1 []⟩) ∧
      (pyIn '/' ((pySplit s ':').getD 5 []) = false →
        ARN.parse s = .ok ⟨s, (pySplit s ':').getD 0 [], (pySplit s ':').getD 1 [],
          (pySplit s ':').getD 2 [], (pySplit s ':').getD 3 [], (pySplit s ':').getD 4 [],
          none, (pySplit s ':').getD 5 []⟩)) := by
  constructor
  · intro h7
    obtain ⟨a, b, c, d, e, f, g, hl⟩ := exists_len7 (pySplit s ':') h7
    unfold ARN.parse
    rw [hl, ARN.parseElems_seven]
    simp [List.getD_cons_zero, List.getD_cons_succ]
  · intro h6
    obtain ⟨a, b, c, d, e, f, hl⟩ := exists_len6 (pySplit s ':') h6
    constructor
    · intro hin
      rw [hl] at hin
      simp only [List.getD_cons_zero, List.getD_cons_succ] at hin
      obtain ⟨x, y, hxy⟩ := pySplit1_pair '/' f hin
      unfold ARN.parse
      rw [hl, ARN.parseElems_six_slash s a b c d e f x y hin hxy]
      simp [List.getD_cons_zero, List.getD_cons_succ, hxy]
    · intro hin
      rw [hl] at hin
      simp only [List.getD_cons_zero, List.getD_cons_succ] at hin
      unfold ARN.parse
      rw [hl, ARN.parseElems_six_noslash s a b c d e f hin]
      simp [List.getD_cons_zero, List.getD_cons_succ]

/-- Witness for `arn_parse_splitting`: the spec's 7-segment test vector and
a 6-segment vector with a slash in segment 5. -/
theorem arn_parse_splitting_witness :
    ARN.parse (str "arn:aws:iam::123456789012:role:common-roles/developer") =
      .ok ⟨str "arn:aws:iam::123456789012:role:common-roles/developer", str "arn", str "aws",
           str "iam", str "", str "123456789012", some (str "role"), str "common-roles/developer"⟩ ∧
    ARN.parse (str "arn:aws:iam::123456789012:role/administrator") =
      .ok ⟨str "arn:aws:iam::123456789012:role/administrator", str "arn", str "aws",
           str "iam", str "", str "123456789012", some (str "role"), str "administrator"⟩ := by
  constructor
  · have h := (arn_parse_splitting
      (str "arn:aws:iam::123456789012:role:common-roles/developer")).1 (by decide)
    rw [h]
    decide
  · have h := ((arn_parse_splitting
      (str "arn:aws:iam::123456789012:role/administrator")).2 (by decide)).1 (by decide)
    rw [h]
    decide

/-- C1 (counterexample): with the fixed key holding a record whose
expiration equals the current time (both instant 100), `get_session_token`
returns the record instead of the miss the claim requires: the code
computes `expired = expiration < now`, so an expiration exactly equal to
now counts as not expired. -/
theorem boundary_expiration_counterexample :
    storeGetitem demoStore CachedMfaSessionFactory.SESSION_KEY = .ok demoEntry ∧
    demoEntry.credentials = some demoCreds ∧
    demoCreds.expiration = some 100 ∧
    ((100 : Int) ≤ 100) ∧
    (SessionCache.get_session_token demoStore 100 CachedMfaSessionFactory.SESSION_KEY).1 =
      .ok (some demoEntry) ∧
    (SessionCache.get_session_token demoStore 100 CachedMfaSessionFactory.SESSION_KEY).1 ≠
      .ok none := by
  decide

/-- C1 (amended): a cached entry is reported as a miss exactly when its
expiration is strictly before the current UTC time; an entry whose
expiration equals now is treated as unexpired and returned. -/
theorem expired_strict_boundary (store : Store) (now : Int) (key : PyStr)
    (entry : SessionData) (creds : CredentialsData) (e : Int)
    (hget : storeGetitem store key = .ok entry)
    (hc : entry.credentials = some creds)
    (he : creds.expiration = some e) :
    ((SessionCache.get_session_token store now key).1 = .ok none ↔ e < now) := by
  have hcached : SessionCache.get_cached_session store key = some entry := by
    unfold SessionCache.get_cached_session
    rw [hget]
  have hexp : SessionCache.is_expired now entry = .ok (decide (e < now)) := by
    unfold SessionCache.is_expired
    simp only [hc, he]
  unfold SessionCache.get_session_token
  simp only [hcached, hexp]
  by_cases hlt : e < now
  · rw [decide_eq_true hlt]
    simp [hlt]
  · rw [decide_eq_false hlt]
    simp [hlt]

/-- Witness for `expired_strict_boundary`: expiration 100, current time
200. -/
theorem expired_strict_boundary_witness :
    ((SessionCache.get_session_token demoStore 200 CachedMfaSessionFactory.SESSION_KEY).1 =
      .ok none ↔ (100 : Int) < 200) :=
  expired_strict_boundary demoStore 200 CachedMfaSessionFactory.SESSION_KEY demoEntry
    demoCreds 100 (by decide) (by decide) (by decide)

/-- C4: round-trip: caching a record whose expiration is strictly in the
future and immediately reading it back under the same key returns the
record unchanged. -/
theorem cache_roundtrip (store : Store) (key : PyStr) (data : SessionData)
    (now : Int) (creds : CredentialsData) (e : Int)
    (hc : data.credentials = some creds)
    (he : creds.expiration = some e)
    (hfut : now < e) :
    (SessionCache.get_session_token (SessionCache.cache_session store key data) now key).1 =
      .ok (some data) := by
  have hcached :
      SessionCache.get_cached_session (SessionCache.cache_session store key data) key =
        some data := by
    unfold SessionCache.get_cached_session SessionCache.cache_session
    rw [storeGetitem_setitem_self]
  have hexp : SessionCache.is_expired now data = .ok false := by
    unfold SessionCache.is_expired
    simp only [hc, he, decide_eq_false (show ¬e < now by omega)]
  unfold SessionCache.get_session_token
  simp only [hcached, hexp]

/-- Witness for `cache_roundtrip`: an empty store, `demoEntry` (expiring at
100), current time 0. -/
theorem cache_roundtrip_witness :
    (SessionCache.get_session_token
        (SessionCache.cache_session [] (str "key") demoEntry) 0 (str "key")).1 =
      .ok (some demoEntry) :=
  cache_roundtrip [] (str "key") demoEntry 0 demoCreds 100 (by decide) (by decide) (by decide)

/-- C6: a key absent from the underlying store is a normal cache miss: the
store lookup's `KeyError` is caught and `get_session_token` returns `none`
without raising. -/
theorem missing_key_is_miss (store : Store) (now : Int) (key : PyStr)
    (h : storeGetitem store key = .error .keyError) :
    SessionCache.get_session_token store now key = (.ok none, store) := by
  have hc : SessionCache.get_cached_session store key = none := by
    unfold SessionCache.get_cached_session
    rw [h]
  unfold SessionCache.get_session_token
  rw [hc]

/-- Witness for `missing_key_is_miss`: the empty store. -/
theorem missing_key_is_miss_witness :
    SessionCache.get_session_token [] 0 (str "key") = (.ok none, []) :=
  missing_key_is_miss [] 0 (str "key") (by decide)

/-- C10: a present, non-empty but malformed entry — one missing the nested
`Credentials` dict or its `Expiration` key — makes `get_session_token`
raise `KeyError` instead of returning a miss: only the store lookup's own
`KeyError` is converted into a miss, not errors raised while inspecting
the entry. -/
theorem malformed_entry_raises (store : Store) (now : Int) (key : PyStr)
    (entry : SessionData)
    (hget : storeGetitem store key = .ok entry)
    (hmal : entry.credentials = none ∨
      ∃ creds, entry.credentials = some creds ∧ creds.expiration = none) :
    (SessionCache.get_session_token store now key).1 = .error .keyError := by
  have hcached : SessionCache.get_cached_session store key = some entry := by
    unfold SessionCache.get_cached_session
    rw [hget]
  have hexp : SessionCache.is_expired now entry = .error .keyError := by
    unfold SessionCache.is_expired
    rcases hmal with h | ⟨creds, hc, he⟩
    · rw [h]
    · simp only [hc, he]
  unfold SessionCache.get_session_token
  simp only [hcached, hexp]

/-- Witness for `malformed_entry_raises`: a record without `Expiration`. -/
theorem malformed_entry_raises_witness :
    (SessionCache.get_session_token [(str "k", demoNoExp)] 0 (str "k")).1 =
      .error .keyError :=
  malformed_entry_raises [(str "k", demoNoExp)] 0 (str "k") demoNoExp (by decide)
    (Or.inr ⟨⟨str "AK", str "SK", str "TK", none⟩, by decide, by decide⟩)

/-- C9: `get_session_token` never mutates the underlying store — it returns
the store it was given, so in particular an entry it reported as expired or
missing is still readable afterwards; the only store mutation the Session
Cache performs is `cache_session`'s unconditional overwrite. -/
theorem session_cache_frame :
    (∀ (store : Store) (now : Int) (key : PyStr),
      (SessionCache.get_session_token store now key).2 = store) ∧
    (∀ (store : Store) (now : Int) (key : PyStr) (entry : SessionData),
      storeGetitem store key = .ok entry →
      (SessionCache.get_session_token store now key).1 = .ok none →
      storeGetitem (SessionCache.get_session_token store now key).2 key = .ok entry) ∧
    (∀ (store : Store) (key : PyStr) (data : SessionData),
      storeGetitem (SessionCache.cache_session store key data) key = .ok data) := by
  refine ⟨get_session_token_snd, ?_, ?_⟩
  · intro store now key entry hget _
    rw [get_session_token_snd]
    exact hget
  · intro store key data
    exact storeGetitem_setitem_self store key data

/-- Witness for `session_cache_frame`: the expired `demoEntry` (expiring at
100, read at 200) is still readable after the miss. -/
theorem session_cache_frame_witness :
    storeGetitem (SessionCache.get_session_token demoStore 200
        CachedMfaSessionFactory.SESSION_KEY).2 CachedMfaSessionFactory.SESSION_KEY =
      .ok demoEntry :=
  session_cache_frame.2.1 demoStore 200 CachedMfaSessionFactory.SESSION_KEY demoEntry
    (by decide) (by decide)

/-- C2: on a cache miss the factory resolves the caller's account and user
name (the part of the identity ARN after the last `'/'`) via
`get_caller_identity`, issues the `get_session_token` exchange with
`DurationSeconds` 43200, `SerialNumber` `arn:aws:iam::{account}:mfa/{user}`
and the supplied MFA code, stores the exchange's response in the cache
under the fixed key `"temporary_session"`, and returns that response
unchanged. -/
theorem factory_miss_creates_session (sts : StsClient) (store : Store) (now : Int)
    (code prompted : PyStr)
    (hmiss : (SessionCache.get_session_token store now
      CachedMfaSessionFactory.SESSION_KEY).1 = .ok none)
    (hcode : code ≠ []) :
    CachedMfaSessionFactory.get_session_token sts store now (some code) prompted =
      .ok ⟨sts.sessionTokenResponse
             ⟨43200,
              str "arn:aws:iam::" ++ sts.identity.account ++ str ":mfa/" ++
                lastElem (pySplit sts.identity.arn '/'),
              code⟩,
           SessionCache.cache_session store CachedMfaSessionFactory.SESSION_KEY
             (sts.sessionTokenResponse
               ⟨43200,
                str "arn:aws:iam::" ++ sts.identity.account ++ str ":mfa/" ++
                  lastElem (pySplit sts.identity.arn '/'),
                code⟩),
           1,
           [⟨43200,
             str "arn:aws:iam::" ++ sts.identity.account ++ str ":mfa/" ++
               lastElem (pySplit sts.identity.arn '/'),
             code⟩]⟩ := by
  unfold CachedMfaSessionFactory.get_session_token
  simp only [hmiss]
  unfold CachedMfaSessionFactory.create_session get_account_and_user
  simp [if_neg hcode, CachedMfaSessionFactory.MFA_SESSION_DURATION_seconds]

/-- Witness for `factory_miss_creates_session`: the spec's mocked exchange
(account `"123456789012"`, identity ARN `"arn"`, MFA code `"token"`)
against the empty cache. -/
theorem factory_miss_creates_session_witness :
    CachedMfaSessionFactory.get_session_token demoSts [] 0 (some (str "token")) [] =
      .ok ⟨demoEntry, [(CachedMfaSessionFactory.SESSION_KEY, demoEntry)], 1,
           [⟨43200, str "arn:aws:iam::123456789012:mfa/arn", str "token"⟩]⟩ := by
  have h := factory_miss_creates_session demoSts [] 0 (str "token") [] (by decide) (by decide)
  rw [h]
  decide

/-- C3: when the session cache holds a valid (unexpired) entry under the
fixed key, the factory returns that entry and performs no remote call —
neither `get_caller_identity` nor `get_session_token`; consequently a cold
first call followed by a second call against the cache it warmed performs
exactly one `get_session_token` exchange in total. -/
theorem factory_warm_cache_no_exchange :
    (∀ (sts : StsClient) (store : Store) (now : Int) (mfa_token : Option PyStr)
       (prompted : PyStr) (entry : SessionData),
      (SessionCache.get_session_token store now CachedMfaSessionFactory.SESSION_KEY).1 =
        .ok (some entry) →
      CachedMfaSessionFactory.get_session_token sts store now mfa_token prompted =
        .ok ⟨entry, store, 0, []⟩) ∧
    (∀ (sts : StsClient) (store : Store) (now1 now2 : Int) (tok1 tok2 : Option PyStr)
       (p1 p2 : PyStr) (o1 : CachedMfaSessionFactory.FactoryOutcome),
      (SessionCache.get_session_token store now1 CachedMfaSessionFactory.SESSION_KEY).1 =
        .ok none →
      CachedMfaSessionFactory.get_session_token sts store now1 tok1 p1 = .ok o1 →
      (SessionCache.get_session_token o1.store now2 CachedMfaSessionFactory.SESSION_KEY).1 =
        .ok (some o1.result) →
      o1.callerIdentityCalls = 1 ∧ o1.tokenRequests.length = 1 ∧
      CachedMfaSessionFactory.get_session_token sts o1.store now2 tok2 p2 =
        .ok ⟨o1.result, o1.store, 0, []⟩) := by
  constructor
  · intro sts store now mfa_token prompted entry h
    unfold CachedMfaSessionFactory.get_session_token
    simp only [h]
  · intro sts store now1 now2 tok1 tok2 p1 p2 o1 hmiss h1 hwarm
    have ho1 : o1 = CachedMfaSessionFactory.create_session sts store p1 tok1 := by
      unfold CachedMfaSessionFactory.get_session_token at h1
      simp only [hmiss] at h1
      exact (Except.ok.inj h1).symm
    refine ⟨?_, ?_, ?_⟩
    · rw [ho1]
      rfl
    · rw [ho1]
      rfl
    · unfold CachedMfaSessionFactory.get_session_token
      simp only [hwarm]

/-- Witness for `factory_warm_cache_no_exchange`: a warm hit on `demoStore`
at time 0, and a cold call on the empty store at time 0 followed by a
second call at time 50 against the cache the first call warmed. -/
theorem factory_warm_cache_no_exchange_witness :
    CachedMfaSessionFactory.get_session_token demoSts demoStore 0 none [] =
      .ok ⟨demoEntry, demoStore, 0, []⟩ ∧
    CachedMfaSessionFactory.get_session_token demoSts
        [(CachedMfaSessionFactory.SESSION_KEY, demoEntry)] 50 none (str "p") =
      .ok ⟨demoEntry, [(CachedMfaSessionFactory.SESSION_KEY, demoEntry)], 0, []⟩ := by
  constructor
  · exact factory_warm_cache_no_exchange.1 demoSts demoStore 0 none [] demoEntry (by decide)
  · have h := factory_warm_cache_no_exchange.2 demoSts [] 0 50 (some (str "token")) none
      (str "t1") (str "p")
      ⟨demoEntry, [(CachedMfaSessionFactory.SESSION_KEY, demoEntry)], 1,
        [⟨43200, str "arn:aws:iam::123456789012:mfa/arn", str "token"⟩]⟩
      (by decide) (by decide) (by decide)
    exact h.2.2

/-- C7: the SSO provider's `temporary_credentials` accessor always raises
`NotImplementedError` ("SSO session uses token, not credentials") and never
yields credentials. -/
theorem sso_temporary_credentials_unsupported (p : SSOSessionProvider) :
    SSOSessionProvider.temporary_credentials p =
      .error (.notImplementedError "SSO session uses token, not credentials") ∧
    ∀ creds, SSOSessionProvider.temporary_credentials p ≠ .ok creds := by
  refine ⟨rfl, fun creds h => ?_⟩
  simp [SSOSessionProvider.temporary_credentials] at h

/-- C8: `get_user` fails with the "No accessible roles found" error exactly
when the role enumeration is empty; otherwise it assumes the first
enumerated role (session name `"test"`, fixed default region
`"eu-west-1"`) and returns the middle `':'`-delimited segment of the
reported user id. -/
theorem sso_get_user_first_role (d : SsoDirectory) :
    (d.roles = [] →
      SSOSessionProvider.get_user d = .error (.exceptionErr "No accessible roles found")) ∧
    (∀ role rest, d.roles = role :: rest →
      (∀ m, SSOSessionProvider.get_user d ≠ .error (.exceptionErr m)) ∧
      (∀ mid, listAt (pySplitN d.userId ':' 2) 1 = .ok mid →
        SSOSessionProvider.get_user d =
          .ok ([⟨str "arn:aws:iam::" ++ role.1 ++ str ":role/" ++ role.2.2,
                str "eu-west-1", str "test"⟩], mid))) := by
  constructor
  · intro h
    unfold SSOSessionProvider.get_user SSOSessionProvider.get_any_role
    simp only [h]
    rfl
  · intro role rest hroles
    obtain ⟨a, hparse, hfull⟩ :=
      ARN.parse_full (str "arn:aws:iam::" ++ role.1 ++ str ":role/" ++ role.2.2)
        (pySplit_role_template role.1 role.2.2)
    have hany : SSOSessionProvider.get_any_role d = .ok a := by
      unfold SSOSessionProvider.get_any_role
      simp only [hroles]
      exact hparse
    constructor
    · intro m h
      unfold SSOSessionProvider.get_user at h
      simp only [hany, exc_bind_ok] at h
      cases hm : listAt (pySplitN d.userId ':' 2) 1 with
      | ok mid =>
        rw [hm] at h
        simp [exc_bind_ok, exc_pure] at h
      | error e =>
        rw [hm] at h
        have he := listAt_error _ _ _ hm
        subst he
        simp [exc_bind_error] at h
    · intro mid hmid
      unfold SSOSessionProvider.get_user
      simp only [hany, exc_bind_ok, hmid, exc_pure]
      rw [hfull]

/-- Witness for `sso_get_user_first_role`: the empty enumeration, and a
one-role directory with user id `"AROA:fred:sess"`. -/
theorem sso_get_user_first_role_witness :
    SSOSessionProvider.get_user ⟨[], str "AROA:fred:sess"⟩ =
      .error (.exceptionErr "No accessible roles found") ∧
    SSOSessionProvider.get_user
        ⟨[(str "123456789012", str "x", str "admin")], str "AROA:fred:sess"⟩ =
      .ok ([⟨str "arn:aws:iam::123456789012:role/admin", str "eu-west-1", str "test"⟩],
           str "fred") := by
  constructor
  · exact (sso_get_user_first_role ⟨[], str "AROA:fred:sess"⟩).1 rfl
  · have h := ((sso_get_user_first_role
      ⟨[(str "123456789012", str "x", str "admin")], str "AROA:fred:sess"⟩).2
      (str "123456789012", str "x", str "admin") [] rfl).2 (str "fred") (by decide)
    rw [h]
    decide
